import Mathlib

/-!
Verification of the turnout manager and DCC accessory-packet encoder of the
ESP32 DCC++ base station (Turnouts module: `TurnoutManager`, `Turnout`,
`TurnoutCommandAdapter`, `AccessoryCommand`, and
`calculateTurnoutBoardAddressAndIndex`).

The C++ code is embedded shallowly: machine integers are modelled as `Nat`
(unsigned) or `Int` (signed) with the relevant truncations made explicit at
every conversion point (`wrap16` for `uint16_t`, `wrap8` for `int8_t`,
`% 256` for `uint8_t`); the JSON document store is modelled as an explicit
record type; side effects (packets queued to the DCC signal channel, replies
printed to the wifi interface) are returned as explicit lists.
-/

/-- Conversion of a C `int` value to `uint16_t` (applied at every assignment
to a `uint16_t` variable or parameter). -/
def wrap16 (n : Int) : Nat := (n.emod 65536).toNat

/-- Conversion of a C `int` value to `int8_t` (applied at every assignment to
an `int8_t` variable or parameter). -/
def wrap8 (n : Int) : Int := (n + 128).emod 256 - 128

/-- The four-entry orientation display-string table `ORIENTATION_STRINGS`. -/
def ORIENTATION_STRINGS : List String := ["LEFT", "RIGHT", "WYE", "MULTI"]

/-- Reading `ORIENTATION_STRINGS[o]` with an orientation value used as a C
array subscript; `none` models an out-of-range access (undefined behavior in
the C original). -/
def orientationEntry (o : Int) : Option String :=
  if 0 ≤ o then ORIENTATION_STRINGS.get? o.toNat else none

/-- `calculateTurnoutBoardAddressAndIndex`: derives the board address
(written through a `uint16_t` pointer) and board index (written through a
`uint8_t` pointer) from a consolidated decoder address (`uint16_t`). -/
def calculateTurnoutBoardAddressAndIndex (address : Nat) : Nat × Int :=
  let boardAddress : Nat := ((address + 3) / 4) % 65536
  let boardIndex : Int := ((address : Int) - (boardAddress : Int) * 4 + 3).emod 256
  (boardAddress, boardIndex)

/-- The `Turnout` entity: `_turnoutID` and `_address` are `uint16_t`
(modelled as `Nat`), `_index` is `int8_t` (modelled as `Int`),
`_boardAddress` is `uint16_t`, `_thrown` is `bool`, and `_orientation` holds
the raw integer value of the `TurnoutOrientation` enumeration (the C code
casts unchecked between `int` and the enumeration). -/
structure Turnout where
  turnoutID : Nat
  address : Nat
  index : Int
  boardAddress : Nat
  thrown : Bool
  orientation : Int
deriving DecidableEq

/-- The explicit constructor `Turnout::Turnout(turnoutID, address, index,
thrown, orientation)`: `_boardAddress` starts at 0 and, when `index == -1`,
`calculateTurnoutBoardAddressAndIndex` overwrites `_boardAddress`/`_index`. -/
def Turnout.ofParams (turnoutID address : Nat) (index : Int) (thrown : Bool)
    (orientation : Int) : Turnout :=
  if index = -1 then
    let p := calculateTurnoutBoardAddressAndIndex address
    ⟨turnoutID, address, p.2, p.1, thrown, orientation⟩
  else
    ⟨turnoutID, address, index, 0, thrown, orientation⟩

/-- `Turnout::update(address, index, orientation)`: assigns `_address`,
`_index`, `_orientation`, and only when `index == -1` recomputes
`_boardAddress`/`_index`; in the other branch `_boardAddress` is left as it
was. -/
def Turnout.update (t : Turnout) (address : Nat) (index : Int)
    (orientation : Int) : Turnout :=
  if index = -1 then
    let p := calculateTurnoutBoardAddressAndIndex address
    { t with address := address, index := p.2, boardAddress := p.1,
             orientation := orientation }
  else
    { t with address := address, index := index, orientation := orientation }

/-- One persisted turnout record of the JSON document (fields are JSON
integers/booleans, as written by `Turnout::toJson`). -/
structure TurnoutRecord where
  id : Int
  address : Int
  subAddress : Int
  boardAddress : Int
  state : Bool
  orientation : Int
deriving DecidableEq

/-- `Turnout::toJson` with `readableStrings = false` (the machine-readable
form used by `TurnoutManager::store`): when `_boardAddress` is non-zero the
reported sub-address is `-1`, otherwise it is `_index`. -/
def Turnout.toJson (t : Turnout) : TurnoutRecord :=
  { id := (t.turnoutID : Int)
    address := (t.address : Int)
    subAddress := if t.boardAddress ≠ 0 then -1 else t.index
    boardAddress := (t.boardAddress : Int)
    state := t.thrown
    orientation := t.orientation }

/-- The deserializing constructor `Turnout::Turnout(JsonObject&)`: reads the
fields back (with the C integer conversions), sets `_boardAddress = 0`, and
when the persisted sub-address is `-1` recomputes `_boardAddress`/`_index`
from `_address`. The persisted `boardAddress` and `orientation` values are
taken as stored, with no validation. -/
def Turnout.ofJson (r : TurnoutRecord) : Turnout :=
  let base : Turnout :=
    { turnoutID := wrap16 r.id
      address := wrap16 r.address
      index := wrap8 r.subAddress
      boardAddress := 0
      thrown := r.state
      orientation := r.orientation }
  if r.subAddress = -1 then
    let p := calculateTurnoutBoardAddressAndIndex base.address
    { base with boardAddress := p.1, index := p.2 }
  else
    base

/-- The persisted JSON document written by `TurnoutManager::store` (a count
node and an array of turnout records). -/
structure StoredDoc where
  count : Int
  turnouts : List TurnoutRecord
deriving DecidableEq

/-- The state touched by the persistence operations: the in-memory turnout
list and the contents of `TURNOUTS_JSON_FILE` in the config store. -/
structure SystemState where
  turnouts : List Turnout
  storedDoc : StoredDoc
deriving DecidableEq

namespace TurnoutManager

/-- `TurnoutManager::store()`: serializes every turnout in order into a
fresh document, counting them with a `uint16_t` counter, and replaces the
stored document. -/
def store (s : SystemState) : SystemState :=
  { s with storedDoc :=
      { count := ((s.turnouts.length % 65536 : Nat) : Int)
        turnouts := s.turnouts.map Turnout.toJson } }

/-- `TurnoutManager::clear()`: frees every turnout and then calls
`store()`, re-persisting the now-empty list. -/
def clear (s : SystemState) : SystemState :=
  store { s with turnouts := [] }

/-- `TurnoutManager::init()`: reads the count node (`uint16_t`), and when it
is positive appends one deserialized turnout per record of the stored array
to the in-memory list. -/
def init (s : SystemState) : SystemState :=
  if 0 < wrap16 s.storedDoc.count then
    { s with turnouts := s.turnouts ++ s.storedDoc.turnouts.map Turnout.ofJson }
  else
    s

/-- `TurnoutManager::createOrUpdate(id, address, index, orientation)`: scans
the list; the first turnout whose id matches is updated in place and the scan
stops; when none matches a new turnout with `thrown = false` is appended. -/
def createOrUpdate (ts : List Turnout) (id address : Nat) (index : Int)
    (orientation : Int) : List Turnout :=
  match ts with
  | [] => [Turnout.ofParams id address index false orientation]
  | t :: rest =>
    if t.turnoutID = id then t.update address index orientation :: rest
    else t :: createOrUpdate rest id address index orientation

/-- `TurnoutManager::remove(id)`: the scan keeps overwriting the candidate,
so the last matching turnout is the one removed; returns the new list and
whether a match was found. -/
def remove (ts : List Turnout) (id : Nat) : List Turnout × Bool :=
  match ts with
  | [] => ([], false)
  | t :: rest =>
    let p := remove rest id
    if p.2 then (t :: p.1, true)
    else if t.turnoutID = id then (rest, true)
    else (t :: rest, false)

/-- `TurnoutManager::getTurnoutByID(id)`: a loop with no break that
overwrites `retval` on every match. -/
def getTurnoutByID (ts : List Turnout) (id : Nat) : Option Turnout :=
  ts.foldl (fun retval t => if t.turnoutID == id then some t else retval) none

/-- `TurnoutManager::getTurnoutByAddress(address)`: a loop with no break
that overwrites `retval` on every match. -/
def getTurnoutByAddress (ts : List Turnout) (address : Nat) : Option Turnout :=
  ts.foldl (fun retval t => if t.address == address then some t else retval) none

/-- `TurnoutManager::getTurnoutByIndex(index)`: walks the list with a
`uint16_t` position counter (wrapping modulo 65536), overwriting `retval`
at every matching position. -/
def getTurnoutByIndex (ts : List Turnout) (index : Nat) : Option Turnout :=
  (ts.foldl
    (fun acc t => (if acc.2 = index then some t else acc.1, (acc.2 + 1) % 65536))
    ((none : Option Turnout), (0 : Nat))).1

end TurnoutManager

/-- The DCC signal channels of the `dccSignal` array; the accessory command
always queues to `DCC_SIGNAL_OPERATIONS`. -/
inductive DccSignalChannel where
  | OPERATIONS
  | PROGRAMMING
deriving DecidableEq

/-- One `loadPacket` call on a DCC signal channel: the byte buffer, the
channel it is queued to, and the repeat count passed along. -/
structure LoadPacket where
  packet : List Nat
  signal : DccSignalChannel
  repeatCount : Nat
deriving DecidableEq

/-- `AccessoryCommand::process(arguments)`: parses `accessoryAddress`
(`uint16_t`), `accessoryIndex` (`uint8_t`) and `activate`, builds the
two-byte accessory packet (each `push_back` converts the computed `int` to
`uint8_t`), and queues it to the operations channel with repeat count 1. -/
def AccessoryCommand.process (accessoryAddress accessoryIndex : Nat)
    (activate : Bool) : LoadPacket :=
  let a := accessoryAddress % 65536
  let i := accessoryIndex % 256
  let byte0 := (0x80 + a % 64) % 256
  let byte1 :=
    (((a / 64 % 8) <<< 4 + (i % 4) <<< 1 + (if activate then 1 else 0)) ^^^ 0xF8) % 256
  { packet := [byte0, byte1]
    signal := DccSignalChannel.OPERATIONS
    repeatCount := 1 }

/-- The replies written to the wifi interface: `<H id address subaddress
thrown>` status lines, `<H id thrown>` state-change lines, `<O>` and `<X>`. -/
inductive Reply where
  | Hfull (id address : Nat) (index : Int) (thrown : Bool)
  | Hstate (id : Nat) (thrown : Bool)
  | O
  | X
deriving DecidableEq

/-- `TurnoutManager::showStatus()`: one `<H id address subaddress thrown>`
line per turnout (via `Turnout::showStatus`). -/
def TurnoutManager.showStatus (ts : List Turnout) : List Reply :=
  ts.map (fun t => Reply.Hfull t.turnoutID t.address t.index t.thrown)

/-- `Turnout::set(thrown, sendDCCPacket)`: sets `_thrown`; when
`sendDCCPacket` it routes an accessory command built from `_boardAddress`
(when non-zero) or `_address`, plus `_index` and the new state, through
`AccessoryCommand::process`; always prints the `<H id thrown>` line.
Returns the updated turnout, the queued packets, and the replies. -/
def Turnout.set (t : Turnout) (thrown : Bool) (sendDCCPacket : Bool) :
    Turnout × List LoadPacket × List Reply :=
  let t' := { t with thrown := thrown }
  let packets :=
    if sendDCCPacket then
      let addrArg : Nat := if t'.boardAddress ≠ 0 then t'.boardAddress else t'.address
      [AccessoryCommand.process addrArg (t'.index.emod 256).toNat t'.thrown]
    else []
  (t', packets, [Reply.Hstate t'.turnoutID t'.thrown])

/-- Result of `TurnoutManager::set`: the updated list, whether a match was
found, and the accumulated packets and replies. -/
structure ManagerSetResult where
  turnouts : List Turnout
  found : Bool
  packets : List LoadPacket
  replies : List Reply
deriving DecidableEq

/-- `TurnoutManager::set(turnoutID, thrown)`: a loop with no break that sets
every matching turnout (each `Turnout::set` emitting its packet and reply). -/
def TurnoutManager.set (ts : List Turnout) (turnoutID : Nat) (thrown : Bool) :
    ManagerSetResult :=
  match ts with
  | [] => ⟨[], false, [], []⟩
  | t :: rest =>
    let tail := TurnoutManager.set rest turnoutID thrown
    if t.turnoutID = turnoutID then
      let r := Turnout.set t thrown true
      ⟨r.1 :: tail.turnouts, true, r.2.1 ++ tail.packets, r.2.2 ++ tail.replies⟩
    else
      ⟨t :: tail.turnouts, tail.found, tail.packets, tail.replies⟩

/-- Modelled from the spec: the default value of the `orientation` parameter
of `TurnoutManager::createOrUpdate` is declared in the header
`DCCppESP32.h`, which is not among the sources; the orientation enumeration
is {LEFT, RIGHT, WYE, MULTI} (spec section 3) and LEFT is its first value, so
the default is modelled as LEFT = 0. -/
def DEFAULT_TURNOUT_ORIENTATION : Int := 0

/-- `TurnoutCommandAdapter::process(arguments)`: the `T` command. The
arguments are modelled as the already-tokenized integer values
(`String::toInt` results). Returns the updated list, the queued packets, and
the replies, mirroring the short-circuiting if/else chain of the source. -/
def TurnoutCommandAdapter.process (arguments : List Int) (ts : List Turnout) :
    List Turnout × List LoadPacket × List Reply :=
  match arguments with
  | [] => (ts, [], TurnoutManager.showStatus ts)
  | a0 :: rest =>
    let turnoutID := wrap16 a0
    match rest with
    | [] =>
      let r := TurnoutManager.remove ts turnoutID
      if r.2 then (r.1, [], [Reply.O]) else (r.1, [], [Reply.X])
    | [a1] =>
      let r := TurnoutManager.set ts turnoutID (a1 = 1)
      if r.found then (r.turnouts, r.packets, r.replies)
      else (r.turnouts, r.packets, r.replies ++ [Reply.X])
    | [a1, a2] =>
      let ts' := TurnoutManager.createOrUpdate ts turnoutID (wrap16 a1) (wrap8 a2)
        DEFAULT_TURNOUT_ORIENTATION
      (ts', [], [Reply.O])
    | _ => (ts, [], [Reply.X])

/-- The internal consistency invariant every turnout reachable through the
constructors holds: the `uint16_t`/`int8_t` fields are in range, a non-zero
`_boardAddress` is (together with `_index`) exactly the mapper output for
`_address`, and a zero `_boardAddress` never coexists with `_index = -1`. -/
def TurnoutWF (t : Turnout) : Prop :=
  t.turnoutID < 65536 ∧ t.address < 65536 ∧
  (-128 ≤ t.index ∧ t.index ≤ 127) ∧
  (t.boardAddress ≠ 0 →
    calculateTurnoutBoardAddressAndIndex t.address = (t.boardAddress, t.index)) ∧
  (t.boardAddress = 0 → t.index ≠ -1)

instance (t : Turnout) : Decidable (TurnoutWF t) := by
  unfold TurnoutWF; infer_instance

/-! ## Arithmetic helper lemmas for the packet encoder -/

theorem mod65536_mod64 (a : Nat) : a % 65536 % 64 = a % 64 :=
  Nat.mod_mod_of_dvd a (by norm_num)

theorem mod65536_div64_mod8 (a : Nat) : a % 65536 / 64 % 8 = a / 64 % 8 := by
  have h : (65536 : Nat) = 64 * 1024 := by norm_num
  rw [h, Nat.mod_mul_right_div_self, Nat.mod_mod_of_dvd _ (by norm_num : (8:Nat) ∣ 1024)]

theorem mod256_mod4 (i : Nat) : i % 256 % 4 = i % 4 :=
  Nat.mod_mod_of_dvd i (by norm_num)

theorem byte0_add_eq_or : ∀ r < 64, (0x80 + r) % 256 = 0x80 ||| r := by decide

theorem byte1_add_eq_or : ∀ x < 8, ∀ y < 4, ∀ z < 2,
    ((x <<< 4 + y <<< 1 + z) ^^^ 0xF8) % 256 = (x <<< 4 ||| y <<< 1 ||| z) ^^^ 0xF8 := by
  decide

theorem byte1_msb_bit3 : ∀ x < 8, ∀ y < 4, ∀ z < 2,
    (((x <<< 4 + y <<< 1 + z) ^^^ 0xF8) % 256) &&& 0x88 = 0x88 := by
  decide

/-- C1: for every accessory activation request, `AccessoryCommand::process`
produces exactly the two bytes `0x80 | (address mod 64)` and
`(((address / 64) mod 8) << 4 | (index mod 4) << 1 | activate) XOR 0xF8`,
and queues that single packet to the operations-track channel with repeat
count 1; in particular address=1, index=0, activate=true gives 0x81, 0xF9. -/
theorem accessory_packet_encoding :
    (∀ (a i : Nat) (act : Bool),
      AccessoryCommand.process a i act =
        { packet := [0x80 ||| a % 64,
            ((a / 64 % 8) <<< 4 ||| (i % 4) <<< 1 ||| (if act then 1 else 0)) ^^^ 0xF8]
          signal := DccSignalChannel.OPERATIONS
          repeatCount := 1 }) ∧
    AccessoryCommand.process 1 0 true =
      { packet := [0x81, 0xF9]
        signal := DccSignalChannel.OPERATIONS
        repeatCount := 1 } := by
  constructor
  · intro a i act
    have hz : (if act then 1 else 0) < 2 := by cases act <;> norm_num
    show LoadPacket.mk _ _ _ = _
    rw [LoadPacket.mk.injEq]
    refine ⟨?_, rfl, rfl⟩
    rw [List.cons.injEq, List.cons.injEq]
    refine ⟨?_, ?_, rfl⟩
    · rw [mod65536_mod64]
      exact byte0_add_eq_or (a % 64) (Nat.mod_lt _ (by norm_num))
    · rw [mod65536_div64_mod8, mod256_mod4]
      exact byte1_add_eq_or (a / 64 % 8) (Nat.mod_lt _ (by norm_num))
        (i % 4) (Nat.mod_lt _ (by norm_num)) _ hz
  · rfl

/-- C10: the second byte emitted by the accessory packet encoder always has
its most significant bit and its bit 3 set (`byte1 AND 0x88 = 0x88`),
matching the DCC second-byte layout 1AAACDDD with C fixed to 1. -/
theorem accessory_packet_byte1_fixed_bits (a i : Nat) (act : Bool) :
    (AccessoryCommand.process a i act).packet.getD 1 0 &&& 0x88 = 0x88 := by
  have hz : (if act then 1 else 0) < 2 := by cases act <;> norm_num
  show ((((a % 65536 / 64 % 8) <<< 4 + (i % 256 % 4) <<< 1 +
      (if act then 1 else 0)) ^^^ 0xF8) % 256) &&& 0x88 = 0x88
  exact byte1_msb_bit3 (a % 65536 / 64 % 8) (Nat.mod_lt _ (by norm_num))
    (i % 256 % 4) (Nat.mod_lt _ (by norm_num)) _ hz

/-- C2: for every consolidated decoder address (a `uint16_t` input), the
mapper outputs `boardAddress = (address + 3) / 4` (integer floor division)
and `boardIndex = address - boardAddress*4 + 3`; consequently, for every
address in the valid DCC accessory range (1 to 2044),
`boardAddress*4 - 3 <= address <= boardAddress*4`. -/
theorem address_mapper_spec (address : Nat) (haddr : address < 65536) :
    (calculateTurnoutBoardAddressAndIndex address).1 = (address + 3) / 4 ∧
    (calculateTurnoutBoardAddressAndIndex address).2 =
      (address : Int) - ((calculateTurnoutBoardAddressAndIndex address).1 : Int) * 4 + 3 ∧
    (1 ≤ address → address ≤ 2044 →
      ((calculateTurnoutBoardAddressAndIndex address).1 : Int) * 4 - 3 ≤ (address : Int) ∧
      (address : Int) ≤ ((calculateTurnoutBoardAddressAndIndex address).1 : Int) * 4) := by
  have h1 : (calculateTurnoutBoardAddressAndIndex address).1 = (address + 3) / 4 % 65536 := rfl
  have h2 : (calculateTurnoutBoardAddressAndIndex address).2 =
      ((address : Int) - (((address + 3) / 4 % 65536 : Nat) : Int) * 4 + 3) % 256 := rfl
  have hlt : (address + 3) / 4 % 65536 = (address + 3) / 4 :=
    Nat.mod_eq_of_lt (by omega)
  rw [h1, h2, hlt]
  refine ⟨rfl, by omega, fun ha1 ha2 => ⟨by omega, by omega⟩⟩

/-- Witness for `address_mapper_spec` at address 10 (the concrete scenario
of the spec: boardAddress 3, boardIndex 1). -/
theorem address_mapper_spec_witness :
    (10 : Nat) < 65536 ∧
    ((calculateTurnoutBoardAddressAndIndex 10).1 = (10 + 3) / 4 ∧
     (calculateTurnoutBoardAddressAndIndex 10).2 =
       (10 : Int) - ((calculateTurnoutBoardAddressAndIndex 10).1 : Int) * 4 + 3 ∧
     (1 ≤ 10 → 10 ≤ 2044 →
       ((calculateTurnoutBoardAddressAndIndex 10).1 : Int) * 4 - 3 ≤ (10 : Int) ∧
       (10 : Int) ≤ ((calculateTurnoutBoardAddressAndIndex 10).1 : Int) * 4)) :=
  ⟨by norm_num, address_mapper_spec 10 (by norm_num)⟩

/-! ## Registry helper lemmas -/

theorem update_preserves_id_thrown (t : Turnout) (address : Nat)
    (index orientation : Int) :
    (t.update address index orientation).turnoutID = t.turnoutID ∧
    (t.update address index orientation).thrown = t.thrown := by
  unfold Turnout.update
  split <;> exact ⟨rfl, rfl⟩

theorem ofParams_id_thrown (id address : Nat) (index : Int) (thrown : Bool)
    (orientation : Int) :
    (Turnout.ofParams id address index thrown orientation).turnoutID = id ∧
    (Turnout.ofParams id address index thrown orientation).thrown = thrown := by
  unfold Turnout.ofParams
  split <;> exact ⟨rfl, rfl⟩

theorem createOrUpdate_id_thrown_map (ts : List Turnout) (id address : Nat)
    (index orientation : Int) :
    (TurnoutManager.createOrUpdate ts id address index orientation).map
        (fun t => (t.turnoutID, t.thrown)) =
      if ts.any (fun t => t.turnoutID == id) then
        ts.map (fun t => (t.turnoutID, t.thrown))
      else
        ts.map (fun t => (t.turnoutID, t.thrown)) ++ [(id, false)] := by
  induction ts with
  | nil =>
    simp only [TurnoutManager.createOrUpdate, List.map, List.any_nil,
      Bool.false_eq_true, if_false, List.nil_append]
    rw [(ofParams_id_thrown id address index false orientation).1,
      (ofParams_id_thrown id address index false orientation).2]
  | cons t rest ih =>
    simp only [TurnoutManager.createOrUpdate, List.any_cons]
    by_cases h : t.turnoutID = id
    · simp only [h, beq_self_eq_true, Bool.true_or, if_true, if_pos rfl, List.map]
      rw [(update_preserves_id_thrown t address index orientation).1,
        (update_preserves_id_thrown t address index orientation).2, h]
    · have hbeq : (t.turnoutID == id) = false := beq_eq_false_iff_ne.mpr h
      simp only [hbeq, Bool.false_or, if_neg h, List.map, ih]
      by_cases hrest : rest.any (fun t => t.turnoutID == id)
      · simp [hrest]
      · simp [hrest]

/-- C6: `createOrUpdate` leaves the `(id, thrown)` pair of every turnout
already in the registry unchanged — in particular the thrown state of an
existing turnout with the given id is untouched — and when no turnout with
that id exists the newly appended turnout has `thrown = false`. -/
theorem createOrUpdate_thrown_frame (ts : List Turnout) (id address : Nat)
    (index orientation : Int) :
    (TurnoutManager.createOrUpdate ts id address index orientation).map
        (fun t => (t.turnoutID, t.thrown)) =
      if ts.any (fun t => t.turnoutID == id) then
        ts.map (fun t => (t.turnoutID, t.thrown))
      else
        ts.map (fun t => (t.turnoutID, t.thrown)) ++ [(id, false)] :=
  createOrUpdate_id_thrown_map ts id address index orientation

theorem createOrUpdate_ids (ts : List Turnout) (id address : Nat)
    (index orientation : Int) :
    (TurnoutManager.createOrUpdate ts id address index orientation).map
        Turnout.turnoutID =
      if ts.any (fun t => t.turnoutID == id) then ts.map Turnout.turnoutID
      else ts.map Turnout.turnoutID ++ [id] := by
  have hmap : ∀ l : List Turnout,
      l.map Turnout.turnoutID =
        (l.map (fun t => (t.turnoutID, t.thrown))).map Prod.fst := by
    intro l; rw [List.map_map]; rfl
  rw [hmap, createOrUpdate_id_thrown_map]
  by_cases h : ts.any (fun t => t.turnoutID == id)
  · simp only [h, if_true, hmap]
  · simp only [h, Bool.false_eq_true, if_false, List.map_append, hmap, List.map]

theorem createOrUpdate_preserves_nodup (ts : List Turnout) (id address : Nat)
    (index orientation : Int)
    (h : (ts.map Turnout.turnoutID).Nodup) :
    ((TurnoutManager.createOrUpdate ts id address index orientation).map
      Turnout.turnoutID).Nodup := by
  rw [createOrUpdate_ids]
  by_cases hany : ts.any (fun t => t.turnoutID == id)
  · simpa [hany] using h
  · have hnot : id ∉ ts.map Turnout.turnoutID := by
      intro hmem
      obtain ⟨t, htmem, hteq⟩ := List.mem_map.mp hmem
      have := List.any_eq_false.mp (Bool.eq_false_iff.mpr hany) t htmem
      simp [hteq] at this
    simp only [hany, Bool.false_eq_true, if_false]
    rw [List.nodup_append]
    exact ⟨h, List.nodup_singleton id, fun x hx hxy =>
      hnot (by rwa [List.mem_singleton.mp hxy] at hx)⟩

/-- C4: starting from the empty registry, after any sequence of
`createOrUpdate` calls no two turnouts in the registry share an id. -/
theorem createOrUpdate_sequence_ids_nodup
    (ops : List (Nat × Nat × Int × Int)) :
    ((ops.foldl
        (fun ts op => TurnoutManager.createOrUpdate ts op.1 op.2.1 op.2.2.1 op.2.2.2)
        []).map Turnout.turnoutID).Nodup := by
  suffices h : ∀ (ops : List (Nat × Nat × Int × Int)) (ts : List Turnout),
      (ts.map Turnout.turnoutID).Nodup →
      ((ops.foldl
          (fun ts op => TurnoutManager.createOrUpdate ts op.1 op.2.1 op.2.2.1 op.2.2.2)
          ts).map Turnout.turnoutID).Nodup by
    exact h ops [] (by simp)
  intro ops
  induction ops with
  | nil => intro ts hts; simpa using hts
  | cons op rest ih =>
    intro ts hts
    exact ih _ (createOrUpdate_preserves_nodup ts op.1 op.2.1 op.2.2.1 op.2.2.2 hts)

/-- C5 counterexample: a turnout created in consolidated-address mode
(address 4, index -1, so `boardAddress = 1`) and then updated with an
explicit index (`index = 2 ≠ -1`) keeps its stale `boardAddress = 1`; the
claim says `boardAddress` is 0 after such an update. -/
theorem update_keeps_stale_boardAddress :
    ((Turnout.ofParams 1 4 (-1) false 0).update 5 2 0).boardAddress = 1 ∧
    ((Turnout.ofParams 1 4 (-1) false 0).update 5 2 0).boardAddress ≠ 0 := by
  decide

/-- C5 (amended): `update(address, index, orientation)` always installs the
given address and orientation and never touches id or thrown state; when
`index = -1` it derives `boardAddress`/`index` through the mapper; otherwise
it installs `index` verbatim and leaves `boardAddress` at its prior value
(which is 0 only for turnouts that were never in consolidated mode). -/
theorem update_spec (t : Turnout) (address : Nat) (index orientation : Int) :
    (t.update address index orientation).address = address ∧
    (t.update address index orientation).orientation = orientation ∧
    (t.update address index orientation).turnoutID = t.turnoutID ∧
    (t.update address index orientation).thrown = t.thrown ∧
    (index = -1 →
      ((t.update address index orientation).boardAddress,
       (t.update address index orientation).index) =
        calculateTurnoutBoardAddressAndIndex address) ∧
    (index ≠ -1 →
      (t.update address index orientation).index = index ∧
      (t.update address index orientation).boardAddress = t.boardAddress) := by
  by_cases h : index = -1
  · subst h; simp [Turnout.update]
  · simp [Turnout.update, h]

/-- Witness for `update_spec` at the concrete input of the counterexample:
the non-sentinel branch installs the index verbatim and keeps the prior
board address. -/
theorem update_spec_witness :
    ((Turnout.ofParams 1 4 (-1) false 0).update 5 2 0).index = 2 ∧
    ((Turnout.ofParams 1 4 (-1) false 0).update 5 2 0).boardAddress =
      (Turnout.ofParams 1 4 (-1) false 0).boardAddress :=
  (update_spec (Turnout.ofParams 1 4 (-1) false 0) 5 2 0).2.2.2.2.2 (by decide)

/-! ## Lookup helper lemmas -/

theorem foldl_overwrite_last (p : Turnout → Bool) (ts : List Turnout) :
    ∀ acc : Option Turnout,
    ts.foldl (fun retval t => if p t then some t else retval) acc =
      match ts.reverse.find? p with
      | some u => some u
      | none => acc := by
  induction ts with
  | nil => intro acc; rfl
  | cons t rest ih =>
    intro acc
    rw [List.foldl_cons, ih, List.reverse_cons, List.find?_append]
    cases hf : rest.reverse.find? p with
    | some u => simp [Option.orElse]
    | none =>
      cases hp : p t with
      | true => simp [Option.orElse, List.find?, hp]
      | false => simp [Option.orElse, List.find?, hp]

theorem foldl_position_scan (index : Nat) (ts : List Turnout) :
    ∀ (acc : Option Turnout) (c : Nat), c + ts.length ≤ 65536 →
    (ts.foldl (fun acc t => (if acc.2 = index then some t else acc.1, (acc.2 + 1) % 65536))
        (acc, c)).1 =
      match (if c ≤ index then ts.get? (index - c) else none) with
      | some u => some u
      | none => acc := by
  induction ts with
  | nil =>
    intro acc c _
    by_cases h : c ≤ index <;> simp [h]
  | cons t rest ih =>
    intro acc c hc
    rw [List.foldl_cons]
    rcases Nat.lt_or_ge (c + 1) 65536 with hlt | hge
    · rw [Nat.mod_eq_of_lt hlt, ih _ (c + 1) (by simp at hc; omega)]
      rcases Nat.lt_trichotomy c index with h | h | h
      · have h1 : c + 1 ≤ index := h
        have h2 : c ≤ index := Nat.le_of_lt h
        have h3 : index - c = (index - (c + 1)) + 1 := by omega
        have h4 : c ≠ index := Nat.ne_of_lt h
        simp only [h1, if_pos, h2, h3, List.get?, h4, if_neg, if_false]
      · subst h
        have h1 : ¬(c + 1 ≤ c) := by omega
        simp [h1, List.get?]
      · have h1 : ¬(c + 1 ≤ index) := by omega
        have h2 : ¬(c ≤ index) := by omega
        have h3 : c ≠ index := by omega
        simp [h1, h2, h3]
    · have hrest : rest = [] := by
        rw [List.length_eq_zero.symm]
        simp at hc; omega
      subst hrest
      simp only [List.foldl_nil]
      rcases Nat.lt_trichotomy c index with h | h | h
      · have h2 : c ≤ index := Nat.le_of_lt h
        have h3 : index - c = (index - (c + 1)) + 1 := by omega
        have h4 : c ≠ index := Nat.ne_of_lt h
        simp [h2, h3, h4, List.get?]
      · subst h
        simp [List.get?]
      · have h2 : ¬(c ≤ index) := by omega
        have h3 : c ≠ index := by omega
        simp [h2, h3]

/-- C7 counterexample: with two turnouts sharing address 10,
`getTurnoutByAddress` returns the later-inserted one, not the
earliest-inserted match the claim promises. -/
theorem getTurnoutByAddress_returns_last :
    TurnoutManager.getTurnoutByAddress
        [Turnout.ofParams 1 10 0 false 0, Turnout.ofParams 2 10 1 false 0] 10 =
      some (Turnout.ofParams 2 10 1 false 0) ∧
    Turnout.ofParams 2 10 1 false 0 ≠ Turnout.ofParams 1 10 0 false 0 := by
  decide

/-- C7 (amended): each lookup loop overwrites its result on every match, so
lookup by id and by address return the last turnout in insertion order that
matches (for id this is the unique match under the uniqueness invariant),
lookup by position returns the element at that position whenever the
registry holds at most 65536 turnouts (beyond that the source's `uint16_t`
position counter wraps), and all three return the `none` sentinel when
nothing matches. -/
theorem registry_lookups_spec :
    (∀ (ts : List Turnout) (id : Nat),
      TurnoutManager.getTurnoutByID ts id =
        ts.reverse.find? (fun t => t.turnoutID == id)) ∧
    (∀ (ts : List Turnout) (address : Nat),
      TurnoutManager.getTurnoutByAddress ts address =
        ts.reverse.find? (fun t => t.address == address)) ∧
    (∀ (ts : List Turnout) (index : Nat), ts.length ≤ 65536 →
      TurnoutManager.getTurnoutByIndex ts index = ts.get? index) := by
  refine ⟨fun ts id => ?_, fun ts address => ?_, fun ts index hlen => ?_⟩
  · rw [TurnoutManager.getTurnoutByID,
      foldl_overwrite_last (fun t => t.turnoutID == id) ts none]
    cases ts.reverse.find? (fun t => t.turnoutID == id) <;> rfl
  · rw [TurnoutManager.getTurnoutByAddress,
      foldl_overwrite_last (fun t => t.address == address) ts none]
    cases ts.reverse.find? (fun t => t.address == address) <;> rfl
  · rw [TurnoutManager.getTurnoutByIndex,
      foldl_position_scan index ts none 0 (by omega)]
    simp only [Nat.zero_le, if_pos, Nat.sub_zero]
    cases ts.get? index <;> rfl

/-- Witness for `registry_lookups_spec`: the position lookup at index 0 on
a one-turnout registry (length within the `uint16_t` counter range). -/
theorem registry_lookups_spec_witness :
    ([Turnout.ofParams 3 7 1 false 0].length ≤ 65536) ∧
    TurnoutManager.getTurnoutByIndex [Turnout.ofParams 3 7 1 false 0] 0 =
      [Turnout.ofParams 3 7 1 false 0].get? 0 :=
  ⟨by decide, registry_lookups_spec.2.2 [Turnout.ofParams 3 7 1 false 0] 0 (by decide)⟩

/-! ## Serialization round-trip lemmas -/

theorem wrap16_coe (n : Nat) (h : n < 65536) : wrap16 (n : Int) = n := by
  show (((n : Int)) % 65536).toNat = n
  omega

theorem wrap8_of_range (m : Int) (h1 : -128 ≤ m) (h2 : m ≤ 127) : wrap8 m = m := by
  show (m + 128) % 256 - 128 = m
  omega

theorem ofJson_toJson (t : Turnout) (h : TurnoutWF t) :
    Turnout.ofJson (Turnout.toJson t) = t := by
  obtain ⟨tid, addr, idx, bA, thr, ori⟩ := t
  obtain ⟨h1, h2, ⟨h3, h4⟩, h5, h6⟩ := h
  by_cases hb : bA = 0
  · subst hb
    have hidx : idx ≠ -1 := h6 rfl
    simp [Turnout.toJson, Turnout.ofJson, hidx,
      wrap16_coe tid h1, wrap16_coe addr h2, wrap8_of_range idx h3 h4]
  · have hcalc := h5 hb
    simp only [Turnout.toJson, Turnout.ofJson] at hcalc ⊢
    simp [hb, wrap16_coe tid h1, wrap16_coe addr h2, hcalc]

theorem init_turnouts_eq (ts : List Turnout) (d : StoredDoc) :
    (TurnoutManager.init ⟨ts, d⟩).turnouts =
      if 0 < wrap16 d.count then ts ++ d.turnouts.map Turnout.ofJson else ts := by
  by_cases h : 0 < wrap16 d.count <;> simp [TurnoutManager.init, h]

/-- C3 counterexample: starting from a registry holding one turnout,
`store()`, then `clear()`, then `init()` leaves the registry empty, because
`clear()` itself re-persists the empty document that `init()` then reloads;
the set present before `clear()` is not reproduced. -/
theorem store_clear_init_loses_turnouts :
    (TurnoutManager.init (TurnoutManager.clear (TurnoutManager.store
        { turnouts := [Turnout.ofParams 1 2 1 true 0]
          storedDoc := { count := 0, turnouts := [] } }))).turnouts = [] ∧
    (TurnoutManager.init (TurnoutManager.clear (TurnoutManager.store
        { turnouts := [Turnout.ofParams 1 2 1 true 0]
          storedDoc := { count := 0, turnouts := [] } }))).turnouts ≠
      [Turnout.ofParams 1 2 1 true 0] := by
  decide

/-- C3 (amended): for every registry whose turnouts satisfy the internal
consistency invariant (fields in machine-integer range, a non-zero
boardAddress agreeing with the mapper output for the address, and index not
-1 when boardAddress is 0) and with fewer than 65536 turnouts, `store()`
followed by dropping the in-memory list only (not the code's `clear()`,
which re-persists the empty document) followed by `init()` reproduces the
identical turnout set — every id, address, index/boardAddress, orientation
and thrown state. -/
theorem store_init_roundtrip (s : SystemState)
    (hwf : ∀ t ∈ s.turnouts, TurnoutWF t)
    (hlen : s.turnouts.length < 65536) :
    (TurnoutManager.init
      { TurnoutManager.store s with turnouts := [] }).turnouts = s.turnouts := by
  have hcount : wrap16 ((s.turnouts.length % 65536 : Nat) : Int) = s.turnouts.length := by
    rw [wrap16_coe _ (Nat.mod_lt _ (by norm_num))]
    exact Nat.mod_eq_of_lt hlen
  have hstate : ({ TurnoutManager.store s with turnouts := [] } : SystemState) =
      ⟨[], ⟨((s.turnouts.length % 65536 : Nat) : Int), s.turnouts.map Turnout.toJson⟩⟩ := rfl
  rw [hstate, init_turnouts_eq, hcount]
  cases hts : s.turnouts with
  | nil => simp
  | cons t rest =>
    have hwf2 : ∀ u ∈ t :: rest, TurnoutWF u := by rw [hts] at hwf; exact hwf
    rw [if_pos (by simp : 0 < (t :: rest).length)]
    simp only [List.nil_append, List.map_map]
    exact (List.map_congr_left fun u hu =>
      ofJson_toJson u (hwf2 u hu)).trans (List.map_id _)

/-- Witness for `store_init_roundtrip` on a registry with one turnout. -/
theorem store_init_roundtrip_witness :
    (TurnoutManager.init
      { TurnoutManager.store
          { turnouts := [Turnout.ofParams 1 2 1 true 0]
            storedDoc := { count := 0, turnouts := [] } } with
        turnouts := [] }).turnouts =
      (SystemState.mk [Turnout.ofParams 1 2 1 true 0]
        { count := 0, turnouts := [] }).turnouts :=
  store_init_roundtrip
    { turnouts := [Turnout.ofParams 1 2 1 true 0]
      storedDoc := { count := 0, turnouts := [] } }
    (by decide) (by decide)

/-- C8: the `T` command with no arguments replies with one
`<H id address subaddress thrown>` line per defined turnout; with an empty
registry it emits no reply at all — in particular not the `<X>` reply the
claim (and the source's own header comment) promises. -/
theorem list_command_replies :
    (∀ ts : List Turnout,
      (TurnoutCommandAdapter.process [] ts).2.2 =
        ts.map (fun t => Reply.Hfull t.turnoutID t.address t.index t.thrown)) ∧
    (TurnoutCommandAdapter.process [] []).2.2 = [] ∧
    (TurnoutCommandAdapter.process [] []).2.2 ≠ [Reply.X] := by
  exact ⟨fun ts => rfl, rfl, by decide⟩

/-- C9: deserializing a persisted record whose orientation value is 7 (out
of the four defined variants) stores orientation 7 unchanged — neither
rejected nor clamped — and reading the four-entry display-string table at
that orientation is an out-of-range access. -/
theorem deserialization_keeps_invalid_orientation :
    (Turnout.ofJson
      { id := 5, address := 10, subAddress := 2, boardAddress := 0,
        state := false, orientation := 7 }).orientation = 7 ∧
    orientationEntry
      (Turnout.ofJson
        { id := 5, address := 10, subAddress := 2, boardAddress := 0,
          state := false, orientation := 7 }).orientation = none := by
  decide
